import Mathlib

/-!
Verification of the perceptron demo (`src/main.rs`).

The two logic-bearing subsystems are embedded shallowly:

* the `Perceptron` (weights, `predict`, `train`) over `ℚ` — the Rust code
  computes with `f64`, but every claim under scrutiny is about the
  structure of the computation (which entries are read/written, signs,
  truncating `zip`s, loop bounds), for which exact rationals are the
  faithful carrier;
* the mouse-press selection handler of `run` — the five meshes'
  albedo colors (neutral grey vs. selected red), the `selected_object`
  label, and the `else if` pick chain, as a pure transition function on
  an explicit scene state.

Randomness (`rand::thread_rng().gen::<f64>()`) is modelled as an
explicit stream `rng : Nat → ℚ` of draws; the `[0,1)` range of
`gen::<f64>()` is a hypothesis on the stream.
-/

namespace WebNN

/-- `struct Perceptron { weights: Vec<f64>, learning_rate: f64 }`. -/
structure Perceptron where
  weights : List ℚ
  learning_rate : ℚ
deriving DecidableEq

/-- `Perceptron::new`: `(0..=num_inputs).map(|_| rng.gen::<f64>()).collect()`.
The random source is an explicit stream of draws `rng : Nat → ℚ`. -/
def Perceptron.new (num_inputs : Nat) (learning_rate : ℚ) (rng : Nat → ℚ) :
    Perceptron :=
  { weights := (List.range (num_inputs + 1)).map rng
    learning_rate := learning_rate }

/-- `Perceptron::predict`: sum of `weights.iter().zip(inputs.iter())`
products, then threshold at `0.0` (`>= 0` gives `1`, else `-1`). -/
def Perceptron.predict (p : Perceptron) (inputs : List ℚ) : Int :=
  let sum := ((p.weights.zip inputs).map (fun wx => wx.1 * wx.2)).sum
  if 0 ≤ sum then 1 else -1

/-- The per-example weight update of `Perceptron::train`:
`self.weights.iter_mut().zip(input.iter())` with
`*weight += self.learning_rate * (error as f64) * x` — only the first
`min (weights.length) (input.length)` weights are touched. -/
def updateWeights (lr : ℚ) (error : Int) : List ℚ → List ℚ → List ℚ
  | [], _ => []
  | ws, [] => ws
  | w :: ws, x :: xs => (w + lr * (error : ℚ) * x) :: updateWeights lr error ws xs

/-- One iteration of the inner loop of `Perceptron::train`: predict,
compute `error = target - prediction`, and if `error != 0` update the
weights; the `Bool` records whether this example counted as an error. -/
def trainStep (p : Perceptron) (input : List ℚ) (target : Int) :
    Perceptron × Bool :=
  let prediction := p.predict input
  let error := target - prediction
  if error ≠ 0 then
    ({ p with weights := updateWeights p.learning_rate error p.weights input }, true)
  else
    (p, false)

/-- One full pass of `Perceptron::train` over the zipped dataset,
returning the updated perceptron and the pass's `error_count`. -/
def trainPass : Perceptron → List (List ℚ × Int) → Perceptron × Nat
  | p, [] => (p, 0)
  | p, ex :: rest =>
    let r := trainStep p ex.1 ex.2
    let s := trainPass r.1 rest
    (s.1, (if r.2 then 1 else 0) + s.2)

/-- `Perceptron::train`: up to `max_epochs` passes over
`inputs.iter().zip(targets.iter())`, breaking as soon as a pass ends
with `error_count == 0`. -/
def Perceptron.train : Perceptron → List (List ℚ) → List Int → Nat → Perceptron
  | p, _, _, 0 => p
  | p, inputs, targets, n + 1 =>
    let r := trainPass p (inputs.zip targets)
    if r.2 = 0 then r.1 else Perceptron.train r.1 inputs targets n

/-- Number of passes over the dataset that `Perceptron.train` actually
performs with epoch budget `n` (instrumentation of the same recursion). -/
def numPasses : Perceptron → List (List ℚ × Int) → Nat → Nat
  | _, _, 0 => 0
  | p, exs, n + 1 =>
    let r := trainPass p exs
    if r.2 = 0 then 1 else numPasses r.1 exs n + 1

/-- Spec-side formulation of the dot product: indexwise sum over the
first `min` of the two lengths. -/
def dotProduct (ws xs : List ℚ) : ℚ :=
  ∑ i ∈ Finset.range (min ws.length xs.length), ws.getD i 0 * xs.getD i 0

/-! ### The training configuration baked into `run` (src/main.rs lines 88–98) -/

/-- The four two-input training examples of `run`. -/
def runInputs : List (List ℚ) := [[0, 0], [0, 1], [1, 0], [1, 1]]

/-- The targets of `run`, in dataset order. -/
def runTargets : List Int := [1, -1, -1, 1]

/-- The learning rate `0.1` passed to `Perceptron::new` in `run`. -/
def runLearningRate : ℚ := 1 / 10

/-- The epoch budget `100` passed to `perceptron.train` in `run`. -/
def runMaxEpochs : Nat := 100

/-- `run`'s perceptron after training:
`Perceptron::new(inputs[0].len(), 0.1)` then
`perceptron.train(&inputs, &targets, 100)`. -/
def runTrainedPerceptron (rng : Nat → ℚ) : Perceptron :=
  (Perceptron.new (runInputs.getD 0 []).length runLearningRate rng).train
    runInputs runTargets runMaxEpochs

/-! ### Decimal rendering of a weight (`perceptron.weights[i].to_string()`) -/

/-- Least exponent `k ≤ 20` with `d ∣ 10 ^ k` (20 covers every weight a
short decimal literal can produce); `20` as a harmless fallback. -/
def decExponent (d : Nat) : Nat :=
  ((List.range 21).find? (fun k => 10 ^ k % d == 0)).getD 20

/-- `n` written in decimal, left-padded with zeros to `k` digits. -/
def padDigits (n k : Nat) : String :=
  let s := toString n
  String.mk (List.replicate (k - s.length) '0') ++ s

/-- Decimal string of a rational with a terminating decimal expansion,
mirroring Rust's `f64::to_string` on such values (e.g. `0.37 ↦ "0.37"`). -/
def decimalString (q : ℚ) : String :=
  let k := decExponent q.den
  let m := q.num.natAbs * 10 ^ k / q.den
  let core :=
    if k = 0 then toString (m / 10 ^ k)
    else toString (m / 10 ^ k) ++ "." ++ padDigits (m % 10 ^ k) k
  if q < 0 then "-" ++ core else core

/-! ### The mouse-press selection handler of `run` (src/main.rs lines 195–243) -/

/-- Mesh albedo as the handler drives it: the neutral
`Color::new(128,128,128,128)` or the selected `Color::RED`. -/
inductive Albedo
  | grey
  | red
deriving DecidableEq

/-- The mutable state the mouse-press handler touches: one albedo per
mesh and the `selected_object` label. -/
structure SceneState where
  sphereColor : Albedo
  outputNodeColor : Albedo
  weightLine1Color : Albedo
  lineColor : Albedo
  inputNode1Color : Albedo
  selected_object : Option String
deriving DecidableEq

/-- Outcome of the five `pick(...)` geometry tests for one pointer
position, one flag per mesh in the order the `else if` chain tests them. -/
structure PickHits where
  hitSphere : Bool
  hitOutputNode : Bool
  hitWeightLine1 : Bool
  hitLine : Bool
  hitInputNode1 : Bool
deriving DecidableEq

/-- The left-mouse-press handler body: reset every mesh to grey, then the
`else if` chain colors the first mesh whose pick test hit and sets
`selected_object`. `weights` is `perceptron.weights`. -/
def handleMousePress (weights : List ℚ) (s : SceneState) (h : PickHits) :
    SceneState :=
  let s := { s with
    sphereColor := .grey, outputNodeColor := .grey, weightLine1Color := .grey,
    lineColor := .grey, inputNode1Color := .grey }
  if h.hitSphere then
    { s with sphereColor := .red, selected_object := some "Sphere" }
  else if h.hitOutputNode then
    { s with outputNodeColor := .red, selected_object := some "Output Node" }
  else if h.hitWeightLine1 then
    { s with weightLine1Color := .red,
             selected_object := some (decimalString (weights.getD 0 0)) }
  else if h.hitLine then
    { s with lineColor := .red,
             selected_object := some (decimalString (weights.getD 1 0)) }
  else if h.hitInputNode1 then
    { s with inputNode1Color := .red, selected_object := some "Input 1" }
  else s

/-- The five albedos in the chain's test order. -/
def colorList (s : SceneState) : List Albedo :=
  [s.sphereColor, s.outputNodeColor, s.weightLine1Color, s.lineColor,
   s.inputNode1Color]

/-- How many meshes are highlighted red. -/
def redCount (s : SceneState) : Nat := (colorList s).count .red

/-- The pick-test outcomes in the chain's test order. -/
def hitList (h : PickHits) : List Bool :=
  [h.hitSphere, h.hitOutputNode, h.hitWeightLine1, h.hitLine, h.hitInputNode1]

/-- A pick event that hit no mesh. -/
def missEvent : PickHits := ⟨false, false, false, false, false⟩

/-! ### Helper lemmas about the training loop -/

theorem updateWeights_length (lr : ℚ) (e : Int) :
    ∀ ws xs : List ℚ, (updateWeights lr e ws xs).length = ws.length := by
  intro ws
  induction ws with
  | nil => intro xs; cases xs <;> rfl
  | cons w ws ih =>
    intro xs
    cases xs with
    | nil => rfl
    | cons x xs => simp [updateWeights, ih]

theorem updateWeights_getElem?_of_le (lr : ℚ) (e : Int) :
    ∀ (ws xs : List ℚ) (i : Nat), xs.length ≤ i →
      (updateWeights lr e ws xs)[i]? = ws[i]? := by
  intro ws
  induction ws with
  | nil => intro xs i _; cases xs <;> rfl
  | cons w ws ih =>
    intro xs i hle
    cases xs with
    | nil => rfl
    | cons x xs =>
      cases i with
      | zero => simp at hle
      | succ j =>
        simp only [updateWeights, List.getElem?_cons_succ]
        exact ih xs j (by simpa using hle)

theorem updateWeights_getElem?_zip (lr : ℚ) (e : Int) :
    ∀ (ws xs : List ℚ) (i : Nat) (w x : ℚ), ws[i]? = some w → xs[i]? = some x →
      (updateWeights lr e ws xs)[i]? = some (w + lr * (e : ℚ) * x) := by
  intro ws
  induction ws with
  | nil => intro xs i w x hw; simp at hw
  | cons a ws ih =>
    intro xs i w x hw hx
    cases xs with
    | nil => simp at hx
    | cons b xs =>
      cases i with
      | zero =>
        simp only [List.getElem?_cons_zero, Option.some_inj] at hw hx
        subst hw; subst hx; simp [updateWeights]
      | succ j =>
        simp only [List.getElem?_cons_succ] at hw hx
        simpa only [updateWeights, List.getElem?_cons_succ] using ih xs j w x hw hx

theorem trainStep_weights_length (p : Perceptron) (input : List ℚ) (t : Int) :
    (trainStep p input t).1.weights.length = p.weights.length := by
  simp only [trainStep]
  split <;> simp [updateWeights_length]

theorem trainStep_getElem?_of_le (p : Perceptron) (input : List ℚ) (t : Int)
    (i : Nat) (hle : input.length ≤ i) :
    (trainStep p input t).1.weights[i]? = p.weights[i]? := by
  simp only [trainStep]
  split <;> simp [updateWeights_getElem?_of_le _ _ _ _ _ hle]

theorem trainStep_of_not_error (p : Perceptron) (input : List ℚ) (t : Int)
    (hf : (trainStep p input t).2 = false) : (trainStep p input t).1 = p := by
  simp only [trainStep] at hf ⊢
  split at hf
  · simp at hf
  · split
    · simp_all
    · rfl

theorem trainPass_weights_length (exs : List (List ℚ × Int)) :
    ∀ p : Perceptron, (trainPass p exs).1.weights.length = p.weights.length := by
  induction exs with
  | nil => intro p; rfl
  | cons ex rest ih =>
    intro p
    simp only [trainPass]
    rw [ih, trainStep_weights_length]

theorem trainPass_getElem?_of_le (i : Nat) (exs : List (List ℚ × Int))
    (hex : ∀ ex ∈ exs, ex.1.length ≤ i) :
    ∀ p : Perceptron, (trainPass p exs).1.weights[i]? = p.weights[i]? := by
  induction exs with
  | nil => intro p; rfl
  | cons ex rest ih =>
    intro p
    simp only [trainPass]
    rw [ih (fun e he => hex e (List.mem_cons_of_mem ex he)),
      trainStep_getElem?_of_le _ _ _ _ (hex ex (List.mem_cons_self ex rest))]

theorem trainPass_of_count_zero (exs : List (List ℚ × Int)) :
    ∀ p : Perceptron, (trainPass p exs).2 = 0 → (trainPass p exs).1 = p := by
  induction exs with
  | nil => intro p _; rfl
  | cons ex rest ih =>
    intro p hz
    simp only [trainPass] at hz ⊢
    rcases hb : (trainStep p ex.1 ex.2).2 with _ | _
    · rw [trainStep_of_not_error p ex.1 ex.2 hb] at hz ⊢
      simp only [hb, if_neg Bool.false_ne_true, Nat.zero_add] at hz
      exact ih p hz
    · rw [hb] at hz; simp at hz

theorem train_weights_length (inputs : List (List ℚ)) (targets : List Int) :
    ∀ (n : Nat) (p : Perceptron),
      (p.train inputs targets n).weights.length = p.weights.length := by
  intro n
  induction n with
  | zero => intro p; rfl
  | succ m ih =>
    intro p
    simp only [Perceptron.train]
    split
    · exact trainPass_weights_length _ p
    · rw [ih, trainPass_weights_length]

theorem train_getElem?_of_le (inputs : List (List ℚ)) (targets : List Int)
    (i : Nat) (hin : ∀ ex ∈ inputs, ex.length ≤ i) :
    ∀ (n : Nat) (p : Perceptron),
      (p.train inputs targets n).weights[i]? = p.weights[i]? := by
  have hex : ∀ ex ∈ inputs.zip targets, ex.1.length ≤ i := by
    intro ex hmem
    exact hin ex.1 (List.of_mem_zip hmem).1
  intro n
  induction n with
  | zero => intro p; rfl
  | succ m ih =>
    intro p
    simp only [Perceptron.train]
    split
    · exact trainPass_getElem?_of_le i _ hex p
    · rw [ih, trainPass_getElem?_of_le i _ hex]

theorem train_of_converged (p : Perceptron) (inputs : List (List ℚ))
    (targets : List Int) (hz : (trainPass p (inputs.zip targets)).2 = 0) :
    ∀ n : Nat, p.train inputs targets n = p := by
  intro n
  cases n with
  | zero => rfl
  | succ m =>
    simp only [Perceptron.train, hz, if_pos rfl]
    exact trainPass_of_count_zero _ p hz

/-! ### Helper lemmas about `predict` -/

theorem zip_take_right (ws : List ℚ) :
    ∀ xs : List ℚ, ws.zip xs = ws.zip (xs.take ws.length) := by
  induction ws with
  | nil => intro xs; rfl
  | cons w ws ih =>
    intro xs
    cases xs with
    | nil => rfl
    | cons x xs => simp [List.zip_cons_cons, ih xs]

theorem zip_take_left (ws : List ℚ) :
    ∀ xs : List ℚ, ws.zip xs = (ws.take xs.length).zip xs := by
  induction ws with
  | nil => intro xs; simp
  | cons w ws ih =>
    intro xs
    cases xs with
    | nil => rfl
    | cons x xs => simp [List.zip_cons_cons, ih xs]

theorem zip_append_singleton (c : ℚ) :
    ∀ (ws xs : List ℚ), xs.length ≤ ws.length → (ws ++ [c]).zip xs = ws.zip xs := by
  intro ws
  induction ws with
  | nil =>
    intro xs h
    rw [List.length_nil, Nat.le_zero, List.length_eq_zero] at h
    subst h; rfl
  | cons w ws ih =>
    intro xs h
    cases xs with
    | nil => rfl
    | cons x xs =>
      simp only [List.cons_append, List.zip_cons_cons, List.cons.injEq, true_and]
      exact ih xs (by simpa using h)

theorem sum_zip_eq_dotProduct :
    ∀ ws xs : List ℚ,
      ((ws.zip xs).map (fun wx => wx.1 * wx.2)).sum = dotProduct ws xs := by
  intro ws
  induction ws with
  | nil => intro xs; simp [dotProduct]
  | cons w ws ih =>
    intro xs
    cases xs with
    | nil => simp [dotProduct]
    | cons x xs =>
      simp only [List.zip_cons_cons, List.map_cons, List.sum_cons, ih xs,
        dotProduct, List.length_cons]
      rw [Nat.succ_min_succ, Finset.sum_range_succ']
      simp [add_comm]

theorem predict_eq_dotProduct_sign (p : Perceptron) (inputs : List ℚ) :
    p.predict inputs = if 0 ≤ dotProduct p.weights inputs then 1 else -1 := by
  simp only [Perceptron.predict, sum_zip_eq_dotProduct]

theorem predict_append_singleton (ws : List ℚ) (c lr : ℚ) (inp : List ℚ)
    (hle : inp.length ≤ ws.length) :
    Perceptron.predict ⟨ws ++ [c], lr⟩ inp = Perceptron.predict ⟨ws, lr⟩ inp := by
  simp only [Perceptron.predict, zip_append_singleton c ws inp hle]

theorem numPasses_le (exs : List (List ℚ × Int)) :
    ∀ (n : Nat) (p : Perceptron), numPasses p exs n ≤ n := by
  intro n
  induction n with
  | zero => intro p; exact Nat.le_refl 0
  | succ m ih =>
    intro p
    simp only [numPasses]
    split
    · exact Nat.succ_le_succ (Nat.zero_le m)
    · exact Nat.succ_le_succ (ih _)

/-! ### Claim theorems -/

/-- C3: `predict` computes the dot product of the weights and the inputs and
returns `+1` if the sum is `>= 0` and `-1` otherwise; in particular, with
weights `[0.5, -0.5, 0.5]` and inputs `[1.0, 1.0]` the dot product is `0.0`
and `predict` returns `+1`. -/
theorem C3_predict_thresholded_dot (p : Perceptron) (inputs : List ℚ) :
    (p.predict inputs = if 0 ≤ dotProduct p.weights inputs then 1 else -1)
    ∧ dotProduct [1 / 2, -1 / 2, 1 / 2] [1, 1] = 0
    ∧ (Perceptron.mk [1 / 2, -1 / 2, 1 / 2] (1 / 10)).predict [1, 1] = 1 := by
  refine ⟨predict_eq_dotProduct_sign p inputs, ?_, ?_⟩
  · simp only [dotProduct]
    simp [Finset.sum_range_succ]
    norm_num
  · simp only [Perceptron.predict, List.zip_cons_cons, List.zip_nil_right,
      List.map_cons, List.map_nil, List.sum_cons, List.sum_nil]
    norm_num

/-- C4: for every `num_inputs ≥ 1` and every learning rate,
`Perceptron::new` produces a weight vector of length `num_inputs + 1` whose
elements all lie in `[0, 1)` — the draws of `rand`'s `gen::<f64>()` are
modelled as a stream `rng` with the `[0, 1)` contract as hypothesis. -/
theorem C4_new_weights (num_inputs : Nat) (lr : ℚ) (rng : Nat → ℚ)
    (hni : 1 ≤ num_inputs) (hrng : ∀ n, 0 ≤ rng n ∧ rng n < 1) :
    (Perceptron.new num_inputs lr rng).weights.length = num_inputs + 1
    ∧ ∀ w ∈ (Perceptron.new num_inputs lr rng).weights, 0 ≤ w ∧ w < 1 := by
  constructor
  · simp [Perceptron.new]
  · intro w hw
    simp only [Perceptron.new, List.mem_map] at hw
    obtain ⟨i, _, rfl⟩ := hw
    exact hrng i

/-- Witness for C4 at `num_inputs = 2`, `rng = const 1/2`. -/
theorem C4_new_weights_witness :
    (Perceptron.new 2 (1 / 10) (fun _ => (1 : ℚ) / 2)).weights.length = 2 + 1
    ∧ ∀ w ∈ (Perceptron.new 2 (1 / 10) (fun _ => (1 : ℚ) / 2)).weights,
        0 ≤ w ∧ w < 1 :=
  C4_new_weights 2 (1 / 10) (fun _ => (1 : ℚ) / 2) (by decide)
    (fun _ => by norm_num)

/-- C9: the training configuration of `run` is exactly the fixed constants
`learning_rate = 0.1`, `max_epochs = 100`, and the dataset of the four
two-input examples `(0,0), (0,1), (1,0), (1,1)` with targets
`+1, -1, -1, +1`, in that order. -/
theorem C9_training_configuration :
    runLearningRate = 1 / 10
    ∧ runMaxEpochs = 100
    ∧ runInputs = [[0, 0], [0, 1], [1, 0], [1, 1]]
    ∧ runTargets = [1, -1, -1, 1]
    ∧ runInputs.zip runTargets =
        [([0, 0], 1), ([0, 1], -1), ([1, 0], -1), ([1, 1], 1)]
    ∧ (runInputs.getD 0 []).length = 2
    ∧ ∀ rng, runTrainedPerceptron rng =
        (Perceptron.new 2 runLearningRate rng).train runInputs runTargets 100 :=
  ⟨rfl, rfl, rfl, rfl, rfl, rfl, fun _ => rfl⟩

/-- C10: `predict` is total for every combination of weight-vector length and
input length: it always returns `+1` or `-1`, the dot product ranges over
exactly `min (len weights) (len inputs)` pairs (the `zip` truncates), and
extra weights or extra inputs are ignored. -/
theorem C10_predict_total_truncating (ws : List ℚ) (lr : ℚ) (inputs : List ℚ) :
    ((Perceptron.mk ws lr).predict inputs = 1
      ∨ (Perceptron.mk ws lr).predict inputs = -1)
    ∧ (ws.zip inputs).length = min ws.length inputs.length
    ∧ (Perceptron.mk ws lr).predict inputs
        = (Perceptron.mk (ws.take inputs.length) lr).predict inputs
    ∧ (Perceptron.mk ws lr).predict inputs
        = (Perceptron.mk ws lr).predict (inputs.take ws.length) := by
  refine ⟨?_, List.length_zip ws inputs, ?_, ?_⟩
  · simp only [Perceptron.predict]
    split
    · exact Or.inl rfl
    · exact Or.inr rfl
  · simp only [Perceptron.predict]
    rw [← zip_take_left]
  · simp only [Perceptron.predict]
    rw [← zip_take_right]

/-- C1, counterexample to "updates every weight": with weights `[0, 0, 1]`,
learning rate `1`, and the single example `([1, 1], -1)`, the error at that
example is `-2 ≠ 0`, yet after one training epoch the weights are
`[-2, -2, 1]` — the third weight was not updated (there is no `input_2`
to pair it with), so not every weight receives `w_i += lr * error * input_i`. -/
theorem C1_counterexample :
    ((-1 : Int) - (Perceptron.mk [0, 0, 1] 1).predict [1, 1] = -2)
    ∧ ((Perceptron.mk [0, 0, 1] 1).train [[1, 1]] [-1] 1).weights
        = [-2, -2, 1] := by
  constructor
  · simp [Perceptron.predict]
  · simp [Perceptron.train, trainPass, trainStep, Perceptron.predict,
      updateWeights]

/-- C1 (amended): `train` performs at most `max_epochs` passes; per example it
computes `prediction` and `error = target - prediction` (in `{-2, 0, +2}` for
targets in `{+1, -1}`); when `error ≠ 0` it counts a mismatch and updates each
weight *paired with an input* by `w_i += learning_rate * error * input_i`
(weights beyond the input's length — the trailing bias slot — are left
unchanged); after a pass with zero mismatches it stops immediately. -/
theorem C1_train_loop_amended (p : Perceptron) (inputs : List (List ℚ))
    (targets : List Int) (maxEpochs : Nat) :
    numPasses p (inputs.zip targets) maxEpochs ≤ maxEpochs
    ∧ (∀ (q : Perceptron) (input : List ℚ) (target : Int),
        (target = 1 ∨ target = -1) →
          target - q.predict input = -2 ∨ target - q.predict input = 0
            ∨ target - q.predict input = 2)
    ∧ (∀ (q : Perceptron) (input : List ℚ) (target : Int),
        target - q.predict input ≠ 0 →
          trainStep q input target =
            (Perceptron.mk
              (updateWeights q.learning_rate (target - q.predict input)
                q.weights input)
              q.learning_rate, true))
    ∧ (∀ (q : Perceptron) (input : List ℚ) (target : Int),
        target - q.predict input = 0 → trainStep q input target = (q, false))
    ∧ (∀ (lr : ℚ) (e : Int) (ws xs : List ℚ) (i : Nat) (w x : ℚ),
        ws[i]? = some w → xs[i]? = some x →
          (updateWeights lr e ws xs)[i]? = some (w + lr * (e : ℚ) * x))
    ∧ (∀ (lr : ℚ) (e : Int) (ws xs : List ℚ) (i : Nat), xs.length ≤ i →
        (updateWeights lr e ws xs)[i]? = ws[i]?)
    ∧ ((trainPass p (inputs.zip targets)).2 = 0 →
        ∀ n, p.train inputs targets n = p) := by
  refine ⟨numPasses_le _ maxEpochs p, ?_, ?_, ?_, ?_, ?_,
    train_of_converged p inputs targets⟩
  · intro q input target ht
    have hp : q.predict input = 1 ∨ q.predict input = -1 := by
      simp only [Perceptron.predict]
      split
      · exact Or.inl rfl
      · exact Or.inr rfl
    rcases ht with rfl | rfl <;> rcases hp with hp | hp <;> rw [hp] <;> simp
  · intro q input target hne
    simp only [trainStep, if_pos hne]
  · intro q input target heq
    simp only [trainStep, heq, ne_eq, not_true_eq_false, if_neg,
      not_false_eq_true]
  · exact fun lr e ws xs i w x hw hx =>
      updateWeights_getElem?_zip lr e ws xs i w x hw hx
  · exact fun lr e ws xs i h => updateWeights_getElem?_of_le lr e ws xs i h

/-- Witness for C1 (amended) at the perceptron `⟨[1], 1⟩` with the single
already-correct example `([1], +1)`. -/
theorem C1_train_loop_amended_witness :
    numPasses (Perceptron.mk [1] 1) ([[1]].zip [1]) 5 ≤ 5
    ∧ ((1 : Int) - (Perceptron.mk [1] 1).predict [1] = -2
        ∨ (1 : Int) - (Perceptron.mk [1] 1).predict [1] = 0
        ∨ (1 : Int) - (Perceptron.mk [1] 1).predict [1] = 2)
    ∧ (updateWeights 1 2 [1] [] )[0]? = ([1] : List ℚ)[0]?
    ∧ (Perceptron.mk [1] 1).train [[1]] [1] 7 = Perceptron.mk [1] 1 := by
  have H := C1_train_loop_amended (Perceptron.mk [1] 1) [[1]] [1] 5
  refine ⟨H.1, H.2.1 (Perceptron.mk [1] 1) [1] 1 (Or.inl rfl),
    H.2.2.2.2.2.1 1 2 [1] [] 0 (Nat.zero_le 0), H.2.2.2.2.2.2 ?_ 7⟩
  simp [trainPass, trainStep, Perceptron.predict]

/-- C5: when every training example has `num_inputs` inputs and the weight
vector has the allocated `num_inputs + 1` entries, `train` never modifies the
trailing weight slot (index `num_inputs`), and `predict` on such inputs never
reads it: the trailing weight keeps its value through any number of epochs
and never influences a prediction. -/
theorem C5_trailing_weight_untouched (p : Perceptron) (num_inputs : Nat)
    (inputs : List (List ℚ)) (targets : List Int) (n : Nat)
    (hw : p.weights.length = num_inputs + 1)
    (hin : ∀ ex ∈ inputs, ex.length = num_inputs) :
    ((p.train inputs targets n).weights.length = num_inputs + 1)
    ∧ ((p.train inputs targets n).weights[num_inputs]?
        = p.weights[num_inputs]?)
    ∧ (∀ (ws : List ℚ) (c lr : ℚ) (inp : List ℚ), inp.length ≤ ws.length →
        Perceptron.predict ⟨ws ++ [c], lr⟩ inp
          = Perceptron.predict ⟨ws, lr⟩ inp) := by
  refine ⟨?_, ?_, fun ws c lr inp h => predict_append_singleton ws c lr inp h⟩
  · rw [train_weights_length, hw]
  · exact train_getElem?_of_le inputs targets num_inputs
      (fun ex hex => (hin ex hex).le) n p

/-- Witness for C5 at the weight vector `[0, 0, 1]` with the `run` dataset
and two epochs. -/
theorem C5_trailing_weight_untouched_witness :
    (((Perceptron.mk [0, 0, 1] 1).train runInputs runTargets 2).weights.length
        = 2 + 1)
    ∧ (((Perceptron.mk [0, 0, 1] 1).train runInputs runTargets 2).weights[2]?
        = (Perceptron.mk [0, 0, 1] 1).weights[2]?)
    ∧ (∀ (ws : List ℚ) (c lr : ℚ) (inp : List ℚ), inp.length ≤ ws.length →
        Perceptron.predict ⟨ws ++ [c], lr⟩ inp
          = Perceptron.predict ⟨ws, lr⟩ inp) :=
  C5_trailing_weight_untouched (Perceptron.mk [0, 0, 1] 1) 2 runInputs
    runTargets 2 rfl (by decide)

/-- Concrete decimal rendering used by claim C8. -/
theorem decimalString_37_100 : decimalString (37 / 100 : ℚ) = "0.37" := by
  have hd : (37 / 100 : ℚ).den = 100 := by norm_num
  have hn : (37 / 100 : ℚ).num = 37 := by norm_num
  have hlt : ¬((37 / 100 : ℚ) < 0) := by norm_num
  simp only [decimalString, hd, hn, hlt, if_false]
  decide

/-- C2, counterexample: a `Miss` (no pick test hits) does *not* clear the
label — starting from a state whose `selected_object` is `some "Sphere"`,
the handler leaves it `some "Sphere"`, not `none` as the claim requires. -/
theorem C2_counterexample :
    (handleMousePress []
        (SceneState.mk .grey .grey .grey .grey .grey (some "Sphere"))
        missEvent).selected_object = some "Sphere"
    ∧ some "Sphere" ≠ (none : Option String) := by
  exact ⟨rfl, by simp⟩

/-- C2 (amended): processing a pick event that hits no entity resets every
mesh to the neutral grey color, but leaves `selected_object` (the label)
unchanged; in particular, a `Miss` applied when no label was ever set leaves
the label absent. -/
theorem C2_miss_resets_colors_keeps_label (w : List ℚ) (s : SceneState) :
    handleMousePress w s missEvent =
      SceneState.mk .grey .grey .grey .grey .grey s.selected_object := rfl

/-- C6: after processing any pick event, at most one mesh is highlighted
red — and exactly one when some pick test hit. All non-red meshes carry the
neutral grey color. -/
theorem C6_at_most_one_selected (w : List ℚ) (s : SceneState) (h : PickHits) :
    redCount (handleMousePress w s h) ≤ 1
    ∧ (h ≠ missEvent → redCount (handleMousePress w s h) = 1) := by
  rcases h with ⟨a, b, c, d, e⟩
  cases a <;> cases b <;> cases c <;> cases d <;> cases e <;>
    simp [handleMousePress, redCount, colorList, missEvent]

/-- Witness for C6 at a pick event hitting both the sphere and the output
node. -/
theorem C6_at_most_one_selected_witness :
    redCount (handleMousePress []
        (SceneState.mk .grey .grey .grey .grey .grey none)
        ⟨true, true, false, false, false⟩) ≤ 1
    ∧ redCount (handleMousePress []
        (SceneState.mk .grey .grey .grey .grey .grey none)
        ⟨true, true, false, false, false⟩) = 1 := by
  have H := C6_at_most_one_selected []
    (SceneState.mk .grey .grey .grey .grey .grey none)
    ⟨true, true, false, false, false⟩
  exact ⟨H.1, H.2 (by decide)⟩

/-- C7: when several pick tests hit at once, the handler deterministically
selects the first mesh in the `else if` chain's (registration) order: the
index of the red mesh equals the index of the first `true` pick flag, for
every combination of hits. -/
theorem C7_first_match_wins (w : List ℚ) (s : SceneState) (h : PickHits) :
    (colorList (handleMousePress w s h)).findIdx?
        (fun c => decide (c = Albedo.red))
      = (hitList h).findIdx? (fun b => b) := by
  rcases h with ⟨a, b, c, d, e⟩
  cases a <;> cases b <;> cases c <;> cases d <;> cases e <;> rfl

/-- C8: the label surfaced for a selection is the fixed name for node roles
("Input 1", "Output Node") and the decimal string of the current
`weights[index]` for a weight edge; in particular with `weights[0] = 0.37`,
selecting the first weight edge yields the label `"0.37"`. -/
theorem C8_labels (w : List ℚ) (s : SceneState) (h : PickHits) :
    (h.hitSphere = false → h.hitOutputNode = true →
      (handleMousePress w s h).selected_object = some "Output Node")
    ∧ (h.hitSphere = false → h.hitOutputNode = false →
        h.hitWeightLine1 = true →
      (handleMousePress w s h).selected_object
        = some (decimalString (w.getD 0 0)))
    ∧ (h.hitSphere = false → h.hitOutputNode = false →
        h.hitWeightLine1 = false → h.hitLine = true →
      (handleMousePress w s h).selected_object
        = some (decimalString (w.getD 1 0)))
    ∧ (h.hitSphere = false → h.hitOutputNode = false →
        h.hitWeightLine1 = false → h.hitLine = false → h.hitInputNode1 = true →
      (handleMousePress w s h).selected_object = some "Input 1")
    ∧ (handleMousePress [37 / 100] s
        ⟨false, false, true, false, false⟩).selected_object = some "0.37" := by
  rcases h with ⟨a, b, c, d, e⟩
  refine ⟨?_, ?_, ?_, ?_, ?_⟩
  · intro h1 h2; subst h1; subst h2; simp [handleMousePress]
  · intro h1 h2 h3; subst h1; subst h2; subst h3; simp [handleMousePress]
  · intro h1 h2 h3 h4; subst h1; subst h2; subst h3; subst h4
    simp [handleMousePress]
  · intro h1 h2 h3 h4 h5; subst h1; subst h2; subst h3; subst h4; subst h5
    simp [handleMousePress]
  · simp [handleMousePress, decimalString_37_100]

/-- Witness for C8 at a pick hitting only the output node. -/
theorem C8_labels_witness :
    (handleMousePress [37 / 100, 1 / 2]
        (SceneState.mk .grey .grey .grey .grey .grey none)
        ⟨false, true, false, false, false⟩).selected_object
      = some "Output Node" := by
  have H := C8_labels [37 / 100, 1 / 2]
    (SceneState.mk .grey .grey .grey .grey .grey none)
    ⟨false, true, false, false, false⟩
  exact H.1 rfl rfl

end WebNN
